import Mathlib

/-!
# Verification of the AlgoRL tabular temporal-difference and bandit algorithms

Shallow embedding of `src/algorl/src/TD.py` and `src/algorl/src/bandit.py`.
Python floats are modelled by `ℚ`; pandas dataframes keyed by states/actions
are modelled by functions together with a pointwise write operation; the
randomness of `np.random` / `random` is modelled by explicit choice streams
passed as arguments, so every theorem quantifies over all possible draws.
-/

namespace AlgoRL

/-- The environment collaborator as consumed by the embedded code
(`self.env` in `TD.py`): an ordered action list, a terminal-state
predicate, a deterministic transition function and the reward grid. -/
structure Env (S A : Type) where
  possible_actions : List A
  is_terminal_state : S → Bool
  new_state_given_action : S → A → S
  grid : S → ℚ

variable {S A : Type}

/-- `q_values_df.at[state, action] = v`: pointwise write of one entry of the
Q dataframe, every other entry untouched. -/
def setQ [DecidableEq S] [DecidableEq A]
    (Q : S → A → ℚ) (s : S) (a : A) (v : ℚ) : S → A → ℚ :=
  fun t b => if t = s ∧ b = a then v else Q t b

/-- `grid[state] = v`: pointwise write of one entry of the state grid. -/
def setG [DecidableEq S] (g : S → ℚ) (s : S) (v : ℚ) : S → ℚ :=
  fun t => if t = s then v else g t

/-- Python's `max` over a nonempty collection (`0` on the empty list, which
Python would reject with a `ValueError`). -/
def listMaxD : List ℚ → ℚ
  | [] => 0
  | [x] => x
  | x :: y :: t => max x (listMaxD (y :: t))

/-- `np.argmax`: index of the first occurrence of the maximum. -/
def argmaxFirst : List ℚ → ℕ
  | [] => 0
  | [_] => 0
  | x :: y :: t => if listMaxD (y :: t) ≤ x then 0 else argmaxFirst (y :: t) + 1

/-- `TemporalDifferenceFunctions.sarsa_formula` (TD.py lines 31-38):
`Q(S,A) ← Q(S,A) + α[R + γ·Q(S',A') − Q(S,A)]`, written through
`q_values_df.at[state, action]`. -/
def sarsa_formula [DecidableEq S] [DecidableEq A] (α γ : ℚ)
    (Q : S → A → ℚ) (state : S) (action : A) (reward : ℚ)
    (next_state : S) (next_action : A) : S → A → ℚ :=
  setQ Q state action
    (Q state action + α * (reward + γ * Q next_state next_action - Q state action))

/-- `TemporalDifferenceFunctions.q_learning_formula` (TD.py lines 40-47):
`Q(S,A) ← Q(S,A) + α[R + γ·max_x Q(S',x) − Q(S,A)]`, the max ranging over
`self.env.possible_actions`; the sampled next action argument is ignored. -/
def q_learning_formula [DecidableEq S] [DecidableEq A] (env : Env S A) (α γ : ℚ)
    (Q : S → A → ℚ) (state : S) (action : A) (reward : ℚ)
    (next_state : S) (_next_action : A) : S → A → ℚ :=
  let max_value := listMaxD (env.possible_actions.map fun x => Q next_state x)
  setQ Q state action
    (Q state action + α * (reward + γ * max_value - Q state action))

/-- The exploitation branch of `TemporalDifferenceFunctions.select_action`
(TD.py line 56): `self.env.possible_actions[np.argmax(Q.loc[state, :])]`. -/
def select_action_exploit [Inhabited A] (env : Env S A) (Q : S → A → ℚ) (state : S) : A :=
  env.possible_actions.getD (argmaxFirst (env.possible_actions.map fun x => Q state x)) default

/-- `TemporalDifferenceFunctions.select_action` (TD.py lines 49-56): with the
drawn `np.random.rand()` value below ε take the supplied random action,
otherwise exploit. -/
def select_action [Inhabited A] (env : Env S A) (epsilon : ℚ) (draw : ℚ)
    (random_action : A) (Q : S → A → ℚ) (state : S) : A :=
  if draw < epsilon then random_action else select_action_exploit env Q state

/-- The update rule handed to `td_control` as the `algo` callable:
`Sarsa.compute_state_value` passes `sarsa_formula`,
`QLearning.compute_state_value` passes `q_learning_formula`. -/
inductive TdRule
  | sarsa
  | qlearning

/-- Dispatch of the `algo` callable inside `td_control` (TD.py line 90). -/
def applyRule [DecidableEq S] [DecidableEq A] (rule : TdRule) (env : Env S A) (α γ : ℚ)
    (Q : S → A → ℚ) (state : S) (action : A) (reward : ℚ)
    (next_state : S) (next_action : A) : S → A → ℚ :=
  match rule with
  | TdRule.sarsa => sarsa_formula α γ Q state action reward next_state next_action
  | TdRule.qlearning => q_learning_formula env α γ Q state action reward next_state next_action

/-- The mutable state of the `td_control` episode loop (TD.py lines 81-97):
the Q dataframe, the `state_action_pairs` dict, the current state and
action, and the `num_of_steps` counter. -/
structure Ctrl (S A : Type) where
  q : S → A → ℚ
  sap : S → A
  state : S
  action : A
  steps : ℕ

/-- One iteration of the `td_control` inner `while` body (TD.py lines 84-97).
`eg` supplies, for each step counter value, the outcome of
`self.epsilon_greedy(state_action_pairs[next_state])` given the stored
action — an oracle covering every possible sequence of random draws. -/
def ctrlStep [DecidableEq S] [DecidableEq A] (env : Env S A) (rule : TdRule) (α γ : ℚ)
    (eg : ℕ → A → A) (c : Ctrl S A) : Ctrl S A :=
  let next_state := env.new_state_given_action c.state c.action
  let next_action := eg c.steps (c.sap next_state)
  let reward := env.grid next_state
  let q' := applyRule rule env α γ c.q c.state c.action reward next_state next_action
  let sap' := fun s => if s = next_state then next_action else c.sap s
  { q := q', sap := sap', state := next_state, action := next_action, steps := c.steps + 1 }

/-- The `td_control` inner loop
`while not self.env.is_terminal_state(state) and num_of_steps < self.num_episodes`
(TD.py line 83), driven by the remaining step allowance as fuel. -/
def episodeGo [DecidableEq S] [DecidableEq A] (env : Env S A) (rule : TdRule) (α γ : ℚ)
    (eg : ℕ → A → A) : ℕ → Ctrl S A → Ctrl S A
  | 0, c => c
  | f + 1, c =>
    if env.is_terminal_state c.state then c
    else episodeGo env rule α γ eg f (ctrlStep env rule α γ eg c)

/-- The epoch loop of `td_control` (TD.py lines 62-97): the Q dataframe is
initialised to all zeros (`get_q_df`, line 60) and the `state_action_pairs`
dict to `sa0`; each epoch starts from `start e`, reads its first action from
the dict, and runs one episode of at most `budget` (`num_episodes`) steps
with fresh choice oracle `eg e`. -/
def td_control [DecidableEq S] [DecidableEq A] (env : Env S A) (rule : TdRule) (α γ : ℚ)
    (sa0 : S → A) (start : ℕ → S) (eg : ℕ → ℕ → A → A) (budget : ℕ) :
    ℕ → (S → A → ℚ) × (S → A)
  | 0 => (fun _ _ => 0, sa0)
  | e + 1 =>
    let prev := td_control env rule α γ sa0 start eg budget e
    let s0 := start e
    let c := episodeGo env rule α γ (eg e) budget
      { q := prev.1, sap := prev.2, state := s0, action := prev.2 s0, steps := 0 }
    (c.q, c.sap)

/-- The mutable state of the `TabularTD0.compute_state_value` episode loop
(TD.py lines 145-155): the current state, the `done` flag and `env.grid`,
which this loop uses as its value table. -/
structure Td0St (S : Type) where
  state : S
  grid : S → ℚ
  done : Bool

/-- Episode entry for TD(0): `state = self.starting_state`, `done = False`,
and the value store is `self.env.grid` itself (TD.py lines 145-146, 152). -/
def td0Init (env : Env S A) (start : S) : Td0St S :=
  { state := start, grid := env.grid, done := false }

/-- One iteration of the TD(0) `while not done` body (TD.py lines 147-155):
`grid[state] += α·(reward + γ·grid[next_state]·(not done) − grid[state])`,
then advance the state and recompute `done`. `acts` supplies the outcome
of `self.get_random_action()` at each step index. -/
def td0Body [DecidableEq S] (env : Env S A) (α γ reward : ℚ) (acts : ℕ → A) (k : ℕ)
    (st : Td0St S) : Td0St S :=
  let action := acts k
  let next_state := env.new_state_given_action st.state action
  let boot := st.grid next_state * (if st.done then 0 else 1)
  let g' := setG st.grid st.state
    (st.grid st.state + α * (reward + γ * boot - st.grid st.state))
  { state := next_state, grid := g', done := env.is_terminal_state next_state }

/-- The TD(0) episode loop `while not done` (TD.py line 147), cut off after
`fuel` iterations; the source loop itself has no step counter. -/
def td0Loop [DecidableEq S] (env : Env S A) (α γ reward : ℚ) (acts : ℕ → A) :
    ℕ → ℕ → Td0St S → Td0St S
  | 0, _, st => st
  | f + 1, k, st =>
    if st.done then st
    else td0Loop env α γ reward acts f (k + 1) (td0Body env α γ reward acts k st)

/-- The mutable state of the `NStepTD.compute_state_value` episode loop
(TD.py lines 285-317): the episode horizon `T` (initially `100_000`), the
time counter `t`, the `states` and `rewards` buffers, the current `state`
and last computed `next_state`, the `done` flag and `env.grid` (used as the
value table, as in TD(0)). -/
structure NStepSt (S : Type) where
  T : ℕ
  t : ℕ
  states : List S
  rewards : List ℚ
  state : S
  next_s : S
  grid : S → ℚ
  done : Bool

/-- Episode entry for n-step TD (TD.py lines 285-289). -/
def nstepInit (env : Env S A) (start : S) : NStepSt S :=
  { T := 100000, t := 0, states := [], rewards := [], state := start,
    next_s := start, grid := env.grid, done := false }

/-- The n-step return computed by `NStepTD.compute_state_value`
(TD.py lines 305-307):
`G = Σ_{x ∈ [ρ, min(ρ+n, T))} rewards[x] · γ^(ρ−x)` — note the exponent
`r - x`, which is `≤ 0` on the whole range — plus, when `ρ + n < T`, the
bootstrap `γ^n · grid[states[ρ+n−1]]`. -/
def nstep_return (γ : ℚ) (n ρ T : ℕ) (rewards : List ℚ) (states : List S)
    (grid : S → ℚ) (dflt : S) : ℚ :=
  let G0 := ((List.range' ρ (min (ρ + n) T - ρ)).map fun x =>
    rewards.getD x 0 * γ ^ ((ρ : ℤ) - (x : ℤ))).sum
  if ρ + n < T then G0 + γ ^ n * grid (states.getD (ρ + n - 1) dflt) else G0

/-- One iteration of the n-step TD `while not done` body (TD.py lines
290-317): when `t < T` take a step, record the state and the reward
`grid[next_state] + step_cost`, and on leaving a terminal state truncate
the horizon; then, with `r = t − n + 1 ≥ 0`, form the return `nstep_return`
and, unless the current state is terminal, write
`grid[states[r]] += α·(G − grid[states[r]])`; finally check `r == T − 1`,
advance `t` and set `state = next_state`. -/
def nstepBody [DecidableEq S] (env : Env S A) (α γ step_cost : ℚ) (n : ℕ)
    (acts : ℕ → A) (st : NStepSt S) : NStepSt S :=
  let stepped :=
    if st.t < st.T then
      let action := acts st.t
      let next_state := env.new_state_given_action st.state action
      let reward := st.grid next_state + step_cost
      let states' := st.states ++ [st.state]
      let rewards' := st.rewards ++ [reward]
      if env.is_terminal_state st.state then (st.t + 1, states', rewards', next_state, true)
      else (st.T, states', rewards', next_state, st.done)
    else (st.T, st.states, st.rewards, st.next_s, st.done)
  let T₁ := stepped.1
  let states₁ := stepped.2.1
  let rewards₁ := stepped.2.2.1
  let next₁ := stepped.2.2.2.1
  let done₁ := stepped.2.2.2.2
  let r : ℤ := (st.t : ℤ) - (n : ℤ) + 1
  let grid₂ :=
    if 0 ≤ r then
      let ρ := r.toNat
      let G := nstep_return γ n ρ T₁ rewards₁ states₁ st.grid st.state
      if env.is_terminal_state st.state then st.grid
      else
        let target := states₁.getD ρ st.state
        setG st.grid target (st.grid target + α * (G - st.grid target))
    else st.grid
  let done₂ := if r = (T₁ : ℤ) - 1 then true else done₁
  { T := T₁, t := st.t + 1, states := states₁, rewards := rewards₁,
    state := next₁, next_s := next₁, grid := grid₂, done := done₂ }

/-- The n-step TD episode loop `while not done` (TD.py line 290), cut off
after `fuel` iterations. -/
def nstepLoop [DecidableEq S] (env : Env S A) (α γ step_cost : ℚ) (n : ℕ)
    (acts : ℕ → A) : ℕ → NStepSt S → NStepSt S
  | 0, st => st
  | f + 1, st =>
    if st.done then st
    else nstepLoop env α γ step_cost n acts f (nstepBody env α γ step_cost n acts st)

/-- The n-step return as the specification states it:
`G = Σ_{k=0}^{n-1} γ^k · r_{τ+k+1} + γ^n · V[s_{τ+n}]`, the reward sum
truncated at termination and the bootstrap term omitted once the
trajectory has terminated within the window, stated over the trajectory's
reward and state sequences. -/
def spec_nstep_return (γ : ℚ) (n ρ T : ℕ) (rewardAt : ℕ → ℚ) (stateAt : ℕ → S)
    (grid : S → ℚ) : ℚ :=
  let G0 := ((List.range' ρ (min (ρ + n) T - ρ)).map fun x =>
    rewardAt x * γ ^ ((x : ℤ) - (ρ : ℤ))).sum
  if ρ + n < T then G0 + γ ^ n * grid (stateAt (ρ + n)) else G0

/-- The `bandit_df` dataframe of `Bandits` (bandit.py lines 31-37): one row
each of `mean`, `sd`, `action_count` and `q_estimation`, indexed by arm. -/
structure BanditTable (A : Type) where
  mean : A → ℚ
  sd : A → ℚ
  action_count : A → ℚ
  q_estimation : A → ℚ

/-- `Greedy._step` / `UCB._step` (bandit.py lines 84-102 and 148-166) after
the reward has been sampled: increment the chosen arm's `action_count`,
then rewrite its `q_estimation` by the sample-average rule or the fixed
step-size rule. `mean` and `sd` are read for the reward sample only. -/
def banditStep [DecidableEq A] (sample_averages : Bool) (step_size : ℚ)
    (t : BanditTable A) (action : A) (reward : ℚ) : BanditTable A :=
  let count' := fun b => if b = action then t.action_count action + 1 else t.action_count b
  let t1 : BanditTable A :=
    { mean := t.mean, sd := t.sd, action_count := count', q_estimation := t.q_estimation }
  let q' :=
    if sample_averages then
      t1.q_estimation action +
        (reward - t1.q_estimation action) / t1.action_count action
    else
      t1.q_estimation action + step_size * (reward - t1.q_estimation action)
  { mean := t1.mean, sd := t1.sd, action_count := t1.action_count,
    q_estimation := fun b => if b = action then q' else t1.q_estimation b }

/-- The table evolution of `Greedy.simulate` / `UCB.simulate` (bandit.py
lines 110-112 and 174-176): fold `_step` over the sequence of chosen
actions and their sampled rewards. -/
def simulateTable [DecidableEq A] (sample_averages : Bool) (step_size : ℚ)
    (t : BanditTable A) : List (A × ℚ) → BanditTable A
  | [] => t
  | (a, r) :: rest =>
    simulateTable sample_averages step_size (banditStep sample_averages step_size t a r) rest

/-- The candidate pool of the exploitation branch of `Greedy._act`
(bandit.py lines 79-81): the index of the rows of the `q_estimation` series
equal to its maximum, from which `np.random.choice` draws uniformly. -/
def greedyCandidates [DecidableEq A] (arms : List A) (q : A → ℚ) : List A :=
  arms.filter fun a => q a = listMaxD (arms.map q)

/-- `bandit_df.idxmax(axis=1)['mean']` (bandit.py lines 113 and 177): the
first arm, in column order, whose true mean is maximal. -/
def bestArm [Inhabited A] (arms : List A) (mean : A → ℚ) : A :=
  arms.getD (argmaxFirst (arms.map mean)) default

/-- Number of occurrences of the best arm in a list of chosen actions. -/
def countBest [DecidableEq A] (best : A) (acts : List A) : ℕ :=
  (acts.filter fun a => a = best).length

/-- The accumulator loop of `Greedy.simulate` / `UCB.simulate` (bandit.py
lines 108-116 and 172-180): walk the chosen actions with `num` the step
index and `cnt` the running `best_action_count`; on a best-arm step append
`(cnt+1)/(num+1)` to `best_action_percentage`, otherwise append nothing. -/
def simulateGo [DecidableEq A] (best : A) : List A → ℕ → ℕ → List ℚ
  | [], _, _ => []
  | a :: rest, num, cnt =>
    if a = best then
      ((cnt : ℚ) + 1) / ((num : ℚ) + 1) :: simulateGo best rest (num + 1) (cnt + 1)
    else simulateGo best rest (num + 1) cnt

/-- The `best_action_percentage` series recorded by `Greedy.simulate` /
`UCB.simulate` over a run whose chosen actions are `acts`. -/
def simulateSeries [DecidableEq A] (best : A) (acts : List A) : List ℚ :=
  simulateGo best acts 0 0

/-- Modelled from the spec: the consumed environment contract of section 6,
as attribute names — `possible_actions`, `all_states`, `available_states`,
`initial_state`, `is_terminal_state`, `new_state_given_action`, `grid`.
The environment class itself is not under `src/`; the spec's contract list
is the model of its attribute surface. -/
def envContractMethods : List String :=
  ["possible_actions", "all_states", "available_states", "initial_state",
   "is_terminal_state", "new_state_given_action", "grid"]

/-- The attribute name looked up for the successor-state query in
`td_control` (TD.py line 85). -/
def tdControlSuccessorMethod : String := "new_state_given_action"

/-- The attribute name looked up for the successor-state query in
`TabularTD0.compute_state_value` (TD.py line 149). -/
def td0SuccessorMethod : String := "new_state_given_action"

/-- The attribute name looked up for the successor-state query in
`NStepTD.compute_state_value` (TD.py line 294). -/
def nstepSuccessorMethod : String := "new_state_given_action"

/-- The attribute name looked up for the successor-state query in
`DoubleQLearning.compute_state_value` (TD.py line 371). -/
def doubleQSuccessorMethod : String := "next_state_given_action"

/-- The attribute name looked up for the successor-state query in
`TabularDynaQ.compute_state_value` (TD.py line 453). -/
def dynaQSuccessorMethod : String := "next_state_given_action"

/-- A three-state corridor: states `0, 1, 2`, single action, `2` terminal
and absorbing, reward grid `(0, 4, 0)`. -/
def corridorEnv : Env ℕ ℕ :=
  { possible_actions := [0],
    is_terminal_state := fun s => s == 2,
    new_state_given_action := fun s _ => min (s + 1) 2,
    grid := fun s => if s == 1 then 4 else 0 }

/-- An unbounded corridor: states `0, 1, 2, ...`, single action, terminal
only from state `5` on, reward grid `(0, 4, 0, ...)`. -/
def longCorridorEnv : Env ℕ ℕ :=
  { possible_actions := [0],
    is_terminal_state := fun s => 5 ≤ s,
    new_state_given_action := fun s _ => s + 1,
    grid := fun s => if s == 1 then 4 else 0 }

/-- A single self-looping, never-terminal state. -/
def selfLoopEnv : Env ℕ ℕ :=
  { possible_actions := [0],
    is_terminal_state := fun _ => false,
    new_state_given_action := fun _ _ => 0,
    grid := fun _ => 0 }

/-- A two-action environment whose Q table holds a tie, for the
tie-breaking analysis of `select_action`. -/
def twoActionEnv : Env ℕ ℕ :=
  { possible_actions := [0, 1],
    is_terminal_state := fun _ => false,
    new_state_given_action := fun s _ => s,
    grid := fun _ => 0 }

/-- A Q table with the tied row `Q 0 = (5, 5)`. -/
def tieQ : ℕ → ℕ → ℚ := fun _ _ => 5

/-- The constant action stream `0` (the degenerate random draw when only
one action exists). -/
def constActs : ℕ → ℕ := fun _ => 0

/-- A concrete `td_control` loop state: zero Q table, all-zero action dict,
at state `0` with action `0` and step counter `0`. -/
def zeroCtrl : Ctrl ℕ ℕ :=
  { q := fun _ _ => 0, sap := fun _ => 0, state := 0, action := 0, steps := 0 }

/-- A degenerate epsilon-greedy oracle: always keep the stored action. -/
def keepEg : ℕ → ℕ → ℕ := fun _ a => a

/-- A degenerate per-epoch epsilon-greedy oracle for `td_control`. -/
def keepEg2 : ℕ → ℕ → ℕ → ℕ := fun _ _ a => a

/-- True arm means for a two-armed bandit: arm `0` pays `1`, arm `1` pays
`0`, so arm `0` is the objectively best arm. -/
def bMean : ℕ → ℚ := fun a => if a = 0 then 1 else 0

/-- A concrete two-armed bandit table with fresh counters and estimates. -/
def freshBandit : BanditTable ℕ :=
  { mean := bMean, sd := fun _ => 1, action_count := fun _ => 0, q_estimation := fun _ => 0 }

/-- Every member of a list is bounded by its Python-style max. -/
theorem listMaxD_le : ∀ (l : List ℚ) (y : ℚ), y ∈ l → y ≤ listMaxD l
  | [x], y, h => by
    rcases List.mem_singleton.mp h with rfl
    exact le_of_eq rfl
  | x :: z :: t, y, h => by
    rcases List.mem_cons.mp h with rfl | h2
    · exact le_max_left _ _
    · exact le_trans (listMaxD_le (z :: t) y h2) (le_max_right _ _)

/-- The Python-style max of a nonempty list is attained by a member. -/
theorem listMaxD_mem : ∀ (l : List ℚ), l ≠ [] → listMaxD l ∈ l
  | [x], _ => by simp [listMaxD]
  | x :: z :: t, _ => by
    rcases max_choice x (listMaxD (z :: t)) with h | h
    · exact List.mem_cons.mpr (Or.inl (by simp [listMaxD, h]))
    · refine List.mem_cons.mpr (Or.inr ?_)
      have hm := listMaxD_mem (z :: t) (by simp)
      simpa [listMaxD, h] using hm

/-- `np.argmax` returns an index inside the array. -/
theorem argmaxFirst_lt_length : ∀ (l : List ℚ), l ≠ [] → argmaxFirst l < l.length
  | [x], _ => by simp [argmaxFirst]
  | x :: z :: t, _ => by
    by_cases hle : listMaxD (z :: t) ≤ x
    · simp [argmaxFirst, hle]
    · have := argmaxFirst_lt_length (z :: t) (by simp)
      simp only [argmaxFirst, hle, if_false]
      simpa using Nat.succ_lt_succ this

/-- The entry at the `np.argmax` index is the maximum. -/
theorem getD_argmaxFirst : ∀ (l : List ℚ), l ≠ [] → l.getD (argmaxFirst l) 0 = listMaxD l
  | [x], _ => by simp [argmaxFirst, listMaxD]
  | x :: z :: t, _ => by
    by_cases hle : listMaxD (z :: t) ≤ x
    · simp [argmaxFirst, listMaxD, hle, max_eq_left hle]
    · have := getD_argmaxFirst (z :: t) (by simp)
      have hx : x ≤ listMaxD (z :: t) := le_of_lt (lt_of_not_le hle)
      simp only [argmaxFirst, hle, if_false, listMaxD]
      rw [max_eq_right hx]
      simpa using this

/-- Every entry strictly before the `np.argmax` index is strictly below
the maximum: `np.argmax` is the FIRST maximising index. -/
theorem argmaxFirst_first : ∀ (l : List ℚ) (j : ℕ), j < argmaxFirst l →
    l.getD j 0 < listMaxD l
  | [], j, h => by simp [argmaxFirst] at h
  | [x], j, h => by simp [argmaxFirst] at h
  | x :: z :: t, j, h => by
    by_cases hle : listMaxD (z :: t) ≤ x
    · simp [argmaxFirst, hle] at h
    · simp only [argmaxFirst, hle, if_false] at h
      have hx : x < listMaxD (z :: t) := lt_of_not_le hle
      have hmax : listMaxD (x :: z :: t) = listMaxD (z :: t) := by
        simp [listMaxD, max_eq_right (le_of_lt hx)]
      match j with
      | 0 => simpa [hmax] using hx
      | j' + 1 =>
        have := argmaxFirst_first (z :: t) j' (Nat.lt_of_succ_lt_succ h)
        simpa [hmax] using this

/-- `getD` through `map` at an in-range index. -/
theorem getD_map {α β : Type} (f : α → β) :
    ∀ (l : List α) (i : ℕ) (d : α) (d0 : β), i < l.length →
      (l.map f).getD i d0 = f (l.getD i d)
  | a :: l, 0, d, d0, _ => by simp
  | a :: l, i + 1, d, d0, h => by
    simpa using getD_map f l i d d0 (Nat.lt_of_succ_lt_succ h)

/-- Both `td_control` update rules write only the `(state, action)` entry,
so rows of other states are untouched. -/
theorem applyRule_other [DecidableEq S] [DecidableEq A] (rule : TdRule) (env : Env S A)
    (α γ : ℚ) (Q : S → A → ℚ) (state : S) (action : A) (reward : ℚ)
    (next_state : S) (next_action : A) (u : S) (b : A) (hu : u ≠ state) :
    applyRule rule env α γ Q state action reward next_state next_action u b = Q u b := by
  cases rule <;>
    simp [applyRule, sarsa_formula, q_learning_formula, setQ, fun h : u = state => hu h]

/-- The all-terminal-rows-are-zero invariant is preserved by one
`td_control` step taken from a non-terminal state. -/
theorem ctrlStep_preserves_zero [DecidableEq S] [DecidableEq A] (env : Env S A)
    (rule : TdRule) (α γ : ℚ) (eg : ℕ → A → A) (c : Ctrl S A)
    (hns : env.is_terminal_state c.state = false)
    (hq : ∀ u b, env.is_terminal_state u = true → c.q u b = 0) :
    ∀ u b, env.is_terminal_state u = true →
      (ctrlStep env rule α γ eg c).q u b = 0 := by
  intro u b hu
  have hne : u ≠ c.state := fun h => by rw [h, hns] at hu; cases hu
  exact (applyRule_other rule env α γ c.q c.state c.action
    (env.grid (env.new_state_given_action c.state c.action))
    (env.new_state_given_action c.state c.action)
    (eg c.steps (c.sap (env.new_state_given_action c.state c.action))) u b hne).trans
    (hq u b hu)

/-- The invariant is preserved by a whole `td_control` episode. -/
theorem episodeGo_preserves_zero [DecidableEq S] [DecidableEq A] (env : Env S A)
    (rule : TdRule) (α γ : ℚ) (eg : ℕ → A → A) :
    ∀ (f : ℕ) (c : Ctrl S A),
      (∀ u b, env.is_terminal_state u = true → c.q u b = 0) →
      ∀ u b, env.is_terminal_state u = true →
        (episodeGo env rule α γ eg f c).q u b = 0
  | 0, c, hq => hq
  | f + 1, c, hq => by
    rw [episodeGo]
    by_cases ht : env.is_terminal_state c.state = true
    · rw [if_pos ht]
      exact hq
    · rw [if_neg ht]
      exact episodeGo_preserves_zero env rule α γ eg f (ctrlStep env rule α γ eg c)
        (ctrlStep_preserves_zero env rule α γ eg c (Bool.of_not_eq_true ht) hq)

/-- A `td_control` episode advances the step counter by at most its fuel,
and stops either in a terminal state or with the fuel exhausted. -/
theorem episodeGo_steps [DecidableEq S] [DecidableEq A] (env : Env S A)
    (rule : TdRule) (α γ : ℚ) (eg : ℕ → A → A) :
    ∀ (f : ℕ) (c : Ctrl S A),
      (episodeGo env rule α γ eg f c).steps ≤ c.steps + f ∧
        (env.is_terminal_state (episodeGo env rule α γ eg f c).state = true ∨
          (episodeGo env rule α γ eg f c).steps = c.steps + f)
  | 0, c => ⟨Nat.le_refl _, Or.inr rfl⟩
  | f + 1, c => by
    rw [episodeGo]
    by_cases ht : env.is_terminal_state c.state = true
    · rw [if_pos ht]
      exact ⟨Nat.le_add_right _ _, Or.inl ht⟩
    · rw [if_neg ht]
      have h := episodeGo_steps env rule α γ eg f (ctrlStep env rule α γ eg c)
      have hsteps : (ctrlStep env rule α γ eg c).steps = c.steps + 1 := rfl
      constructor
      · calc (episodeGo env rule α γ eg f (ctrlStep env rule α γ eg c)).steps
            ≤ (ctrlStep env rule α γ eg c).steps + f := h.1
          _ = c.steps + (f + 1) := by rw [hsteps]; omega
      · rcases h.2 with h2 | h2
        · exact Or.inl h2
        · exact Or.inr (by rw [h2, hsteps]; omega)

/-- A TD(0) loop state whose `done` flag is set is returned unchanged. -/
theorem td0Loop_of_done [DecidableEq S] (env : Env S A) (α γ reward : ℚ)
    (acts : ℕ → A) (f k : ℕ) (st : Td0St S) (h : st.done = true) :
    td0Loop env α γ reward acts f k st = st := by
  cases f <;> simp [td0Loop, h]

/-- If the TD(0) episode loop has exited with its `done` flag set, the
final state is terminal: termination on a terminal state is the only exit
of `while not done` (there is no step ceiling). -/
theorem td0Loop_done_terminal [DecidableEq S] (env : Env S A) (α γ reward : ℚ)
    (acts : ℕ → A) :
    ∀ (f k : ℕ) (st : Td0St S), st.done = false →
      (td0Loop env α γ reward acts f k st).done = true →
      env.is_terminal_state (td0Loop env α γ reward acts f k st).state = true
  | 0, k, st, h0, hd => by
    rw [td0Loop] at hd
    rw [h0] at hd
    cases hd
  | f + 1, k, st, h0, hd => by
    have hneg : ¬st.done = true := fun hh => by rw [h0] at hh; cases hh
    rw [td0Loop, if_neg hneg] at hd ⊢
    by_cases hb : (td0Body env α γ reward acts k st).done = true
    · rw [td0Loop_of_done env α γ reward acts f (k + 1) _ hb] at hd ⊢
      have hts : env.is_terminal_state (td0Body env α γ reward acts k st).state
          = (td0Body env α γ reward acts k st).done := rfl
      rw [hts, hb]
    · exact td0Loop_done_terminal env α γ reward acts f (k + 1)
        (td0Body env α γ reward acts k st) (Bool.of_not_eq_true hb) hd

/-- On the self-looping never-terminal environment the TD(0) `done` flag
can never be raised, whatever the fuel. -/
theorem selfLoop_never_done :
    ∀ (f k : ℕ) (st : Td0St ℕ), st.done = false →
      (td0Loop selfLoopEnv (1/2) (1/2) (-1) constActs f k st).done = false
  | 0, _, _, h0 => h0
  | f + 1, k, st, h0 => by
    have hneg : ¬st.done = true := fun hh => by rw [h0] at hh; cases hh
    rw [td0Loop, if_neg hneg]
    exact selfLoop_never_done f (k + 1) (td0Body selfLoopEnv (1/2) (1/2) (-1) constActs k st)
      rfl

/-- Counting the occurrences of the best arm distributes over `cons`. -/
theorem countBest_cons [DecidableEq A] (best a : A) (l : List A) :
    countBest best (a :: l) = (if a = best then 1 else 0) + countBest best l := by
  by_cases h : a = best
  · simp [countBest, List.filter, h]
    omega
  · simp [countBest, List.filter, h]

/-- Closed form of the `best_action_percentage` accumulator loop: one
entry per step whose action is the best arm, holding
`(cnt + best-arm choices among the first i+1 steps) / (num + i + 1)`. -/
theorem simulateGo_eq [DecidableEq A] (best : A) :
    ∀ (acts : List A) (num cnt : ℕ),
      simulateGo best acts num cnt =
        (List.range acts.length).filterMap fun i =>
          if acts.getD i best = best then
            some (((cnt + countBest best (acts.take (i + 1)) : ℕ) : ℚ) /
              (((num + i : ℕ) : ℚ) + 1))
          else none
  | [], num, cnt => by simp [simulateGo]
  | a :: rest, num, cnt => by
    rw [List.length_cons, List.range_succ_eq_map, List.filterMap_cons, List.filterMap_map]
    by_cases ha : a = best
    · rw [simulateGo, if_pos ha]
      have hhead : (if (a :: rest).getD 0 best = best then
          some (((cnt + countBest best ((a :: rest).take (0 + 1)) : ℕ) : ℚ) /
            (((num + 0 : ℕ) : ℚ) + 1))
          else none) = some (((cnt : ℚ) + 1) / ((num : ℚ) + 1)) := by
        simp [ha, countBest, List.filter]
      rw [hhead]
      congr 1
      rw [simulateGo_eq best rest (num + 1) (cnt + 1)]
      apply List.filterMap_congr
      intro i _
      simp only [Function.comp]
      rw [List.getD_cons_succ, List.take_succ_cons, countBest_cons, if_pos ha]
      by_cases hi : rest.getD i best = best
      · rw [if_pos hi, if_pos hi]
        congr 2
        · push_cast; ring
        · push_cast; ring
      · rw [if_neg hi, if_neg hi]
    · rw [simulateGo, if_neg ha]
      have hhead : (if (a :: rest).getD 0 best = best then
          some (((cnt + countBest best ((a :: rest).take (0 + 1)) : ℕ) : ℚ) /
            (((num + 0 : ℕ) : ℚ) + 1))
          else none) = none := by
        simp [ha]
      rw [hhead]
      rw [simulateGo_eq best rest (num + 1) cnt]
      apply List.filterMap_congr
      intro i _
      simp only [Function.comp]
      rw [List.getD_cons_succ, List.take_succ_cons, countBest_cons, if_neg ha]
      by_cases hi : rest.getD i best = best
      · rw [if_pos hi, if_pos hi]
        congr 2
        · push_cast; ring
        · push_cast; ring
      · rw [if_neg hi, if_neg hi]

/-- Folding `_step` over a run never touches the `mean` and `sd` rows. -/
theorem simulateTable_mean_sd [DecidableEq A] (sa : Bool) (step_size : ℚ) :
    ∀ (runs : List (A × ℚ)) (t : BanditTable A),
      (simulateTable sa step_size t runs).mean = t.mean ∧
        (simulateTable sa step_size t runs).sd = t.sd
  | [], t => ⟨rfl, rfl⟩
  | (a, r) :: rest, t => by
    rw [simulateTable]
    have h := simulateTable_mean_sd sa step_size rest (banditStep sa step_size t a r)
    exact ⟨h.1.trans rfl, h.2.trans rfl⟩

/-- C1: a SARSA update stores exactly `old + α·((r + γ·Q[s',a']) − old)` in
the `(s,a)` entry and changes no other entry; a Q-learning update stores
exactly `old + α·((r + γ·max) − old)` where `max` bounds `Q[s',·]` over all
legal actions and is attained by one of them, changes no other entry, and
is independent of which action is actually taken next. -/
theorem c1_update_rules [DecidableEq S] [DecidableEq A] (env : Env S A)
    (α γ reward : ℚ) (Q : S → A → ℚ) (s : S) (a : A) (s' : S) (a' : A)
    (hA : env.possible_actions ≠ []) :
    sarsa_formula α γ Q s a reward s' a' s a
        = Q s a + α * ((reward + γ * Q s' a') - Q s a)
    ∧ (∀ t b, ¬(t = s ∧ b = a) → sarsa_formula α γ Q s a reward s' a' t b = Q t b)
    ∧ q_learning_formula env α γ Q s a reward s' a' s a
        = Q s a + α * ((reward + γ * listMaxD (env.possible_actions.map fun x => Q s' x))
            - Q s a)
    ∧ (∀ b ∈ env.possible_actions,
        Q s' b ≤ listMaxD (env.possible_actions.map fun x => Q s' x))
    ∧ (∃ b ∈ env.possible_actions,
        listMaxD (env.possible_actions.map fun x => Q s' x) = Q s' b)
    ∧ (∀ t b, ¬(t = s ∧ b = a) → q_learning_formula env α γ Q s a reward s' a' t b = Q t b)
    ∧ (∀ a'', q_learning_formula env α γ Q s a reward s' a'
        = q_learning_formula env α γ Q s a reward s' a'') := by
  refine ⟨?_, ?_, ?_, ?_, ?_, ?_, ?_⟩
  · simp [sarsa_formula, setQ]
  · intro t b htb
    simp [sarsa_formula, setQ, htb]
  · simp [q_learning_formula, setQ]
  · intro b hb
    exact listMaxD_le _ _ (List.mem_map.mpr ⟨b, hb, rfl⟩)
  · have hmem := listMaxD_mem (env.possible_actions.map fun x => Q s' x)
      (fun hc => hA (List.map_eq_nil_iff.mp hc))
    rcases List.mem_map.mp hmem with ⟨b, hb, hval⟩
    exact ⟨b, hb, hval.symm⟩
  · intro t b htb
    simp [q_learning_formula, setQ, htb]
  · intro a''
    rfl

/-- Witness for C1 on a concrete two-action instance. -/
theorem c1_update_rules_witness :
    twoActionEnv.possible_actions ≠ [] ∧
      sarsa_formula 1 1 tieQ 0 0 7 1 1 0 0 = tieQ 0 0 + 1 * ((7 + 1 * tieQ 1 1) - tieQ 0 0) :=
  ⟨by decide, (c1_update_rules twoActionEnv 1 1 7 tieQ 0 0 1 1 (by decide)).1⟩

/-- The all-terminal-rows-are-zero invariant holds after every epoch of
`td_control`, for every choice oracle. -/
theorem td_control_zero [DecidableEq S] [DecidableEq A] (env : Env S A)
    (rule : TdRule) (α γ : ℚ) (sa0 : S → A) (start : ℕ → S) (eg : ℕ → ℕ → A → A)
    (budget : ℕ) :
    ∀ (epochs : ℕ) (u : S) (b : A), env.is_terminal_state u = true →
      (td_control env rule α γ sa0 start eg budget epochs).1 u b = 0
  | 0, _, _, _ => rfl
  | e + 1, u, b, hu =>
    episodeGo_preserves_zero env rule α γ (eg e) budget
      { q := (td_control env rule α γ sa0 start eg budget e).1,
        sap := (td_control env rule α γ sa0 start eg budget e).2,
        state := start e,
        action := (td_control env rule α γ sa0 start eg budget e).2 (start e),
        steps := 0 }
      (fun u' b' hu' => td_control_zero env rule α γ sa0 start eg budget e u' b' hu')
      u b hu

/-- C5: after any number of `td_control` epochs of SARSA or Q-learning,
over every choice of starting states and epsilon-greedy draws, every
Q-table entry of a terminal state still holds its initial value `0`:
the driver writes only entries of the loop's current state, which the
loop guard keeps non-terminal. -/
theorem c5_terminal_rows_stay_zero [DecidableEq S] [DecidableEq A] (env : Env S A)
    (rule : TdRule) (α γ : ℚ) (sa0 : S → A) (start : ℕ → S) (eg : ℕ → ℕ → A → A)
    (budget epochs : ℕ) (s : S) (a : A) (h : env.is_terminal_state s = true) :
    (td_control env rule α γ sa0 start eg budget epochs).1 s a = 0 :=
  td_control_zero env rule α γ sa0 start eg budget epochs s a h

/-- Witness for C5 on the corridor: the terminal state `2` still maps to
`0` after two SARSA epochs of at most five steps each. -/
theorem c5_terminal_rows_stay_zero_witness :
    corridorEnv.is_terminal_state 2 = true ∧
      (td_control corridorEnv TdRule.sarsa (1/2) (1/2) (fun _ => 0) (fun _ => 0)
        keepEg2 5 2).1 2 0 = 0 :=
  ⟨by decide, c5_terminal_rows_stay_zero corridorEnv TdRule.sarsa (1/2) (1/2)
    (fun _ => 0) (fun _ => 0) keepEg2 5 2 2 0 (by decide)⟩

/-- C4 counterexample: the episode loop of TD(0) prediction
(`TabularTD0.compute_state_value`, `while not done`) has no step ceiling:
on a never-terminal self-looping environment no amount of fuel ever
raises its `done` flag, so the loop never stops, refuting the claim that
every TD-family episode driver is bounded by a configured step budget. -/
theorem c4_no_ceiling_counterexample :
    ¬ ∃ f : ℕ, (td0Loop selfLoopEnv (1/2) (1/2) (-1) constActs f 0
      (td0Init selfLoopEnv 0)).done = true := by
  rintro ⟨f, hf⟩
  rw [selfLoop_never_done f 0 (td0Init selfLoopEnv 0) rfl] at hf
  cases hf

/-- C4 amended: only the shared `td_control` driver (SARSA and Q-learning)
stops on a terminal state or on reaching the `num_episodes` step ceiling,
and hence runs each episode for at most `num_episodes` steps; the TD(0)
prediction loop stops only when a terminal state is reached and has no
step ceiling at all. -/
theorem c4_episode_stops [DecidableEq S] [DecidableEq A] (env : Env S A)
    (rule : TdRule) (α γ reward : ℚ) (eg : ℕ → A → A) (acts : ℕ → A)
    (budget : ℕ) (c : Ctrl S A) (fuel k : ℕ) (st : Td0St S)
    (h0 : st.done = false) :
    ((episodeGo env rule α γ eg budget c).steps ≤ c.steps + budget ∧
      (env.is_terminal_state (episodeGo env rule α γ eg budget c).state = true ∨
        (episodeGo env rule α γ eg budget c).steps = c.steps + budget)) ∧
    ((td0Loop env α γ reward acts fuel k st).done = true →
      env.is_terminal_state (td0Loop env α γ reward acts fuel k st).state = true) :=
  ⟨episodeGo_steps env rule α γ eg budget c,
    td0Loop_done_terminal env α γ reward acts fuel k st h0⟩

/-- Witness for C4 amended on the corridor with SARSA, budget 5, and a
three-step TD(0) run. -/
theorem c4_episode_stops_witness :
    (td0Init corridorEnv 0).done = false ∧
      (episodeGo corridorEnv TdRule.sarsa (1/2) (1/2) keepEg 5 zeroCtrl).steps ≤
        zeroCtrl.steps + 5 :=
  ⟨rfl, (c4_episode_stops corridorEnv TdRule.sarsa (1/2) (1/2) (-1) keepEg constActs
    5 zeroCtrl 3 0 (td0Init corridorEnv 0) rfl).1.1⟩

/-- C7: a TD(0) prediction update writes the new estimate straight into the
environment's reward grid: the episode starts on `env.grid` itself, the
update rewrites exactly the current state's grid entry to
`old + α·(r + γ·grid[s'] − old)` and leaves every other entry alone, and
whenever the TD correction is nonzero the original reward value at that
state is overwritten (no separate value table exists in the loop state). -/
theorem c7_td0_overwrites_grid [DecidableEq S] (env : Env S A) (α γ reward : ℚ)
    (acts : ℕ → A) (s0 : S)
    (h : α * (reward + γ * env.grid (env.new_state_given_action s0 (acts 0))
      - env.grid s0) ≠ 0) :
    (td0Init env s0).grid = env.grid ∧
      (td0Body env α γ reward acts 0 (td0Init env s0)).grid s0
        = env.grid s0 + α * (reward + γ *
            env.grid (env.new_state_given_action s0 (acts 0)) - env.grid s0) ∧
      (∀ u, u ≠ s0 → (td0Body env α γ reward acts 0 (td0Init env s0)).grid u
        = env.grid u) ∧
      (td0Body env α γ reward acts 0 (td0Init env s0)).grid s0 ≠ env.grid s0 := by
  have h2 : (td0Body env α γ reward acts 0 (td0Init env s0)).grid s0
      = env.grid s0 + α * (reward + γ *
          env.grid (env.new_state_given_action s0 (acts 0)) - env.grid s0) := by
    simp [td0Body, td0Init, setG]
  refine ⟨rfl, h2, ?_, ?_⟩
  · intro u hu
    simp [td0Body, td0Init, setG, hu]
  · rw [h2]
    intro heq
    apply h
    linarith [heq]

/-- Witness for C7 on the corridor from state `0`. -/
theorem c7_td0_overwrites_grid_witness :
    ((1:ℚ)/2 * (-1 + 1/2 * corridorEnv.grid
        (corridorEnv.new_state_given_action 0 (constActs 0)) - corridorEnv.grid 0) ≠ 0) ∧
      (td0Body corridorEnv (1/2) (1/2) (-1) constActs 0 (td0Init corridorEnv 0)).grid 0
        ≠ corridorEnv.grid 0 :=
  ⟨by norm_num [corridorEnv, constActs],
    (c7_td0_overwrites_grid corridorEnv (1/2) (1/2) (-1) constActs 0
      (by norm_num [corridorEnv, constActs])).2.2.2⟩

/-- C2: on the three-state corridor with α = γ = 1/2, TD(0) reward `-1`,
n-step `step_cost = -1`, start `0` and the same (degenerate) action
stream, one full TD(0) episode ends with `V[0] = 1/2, V[1] = 3/2`, while
one full n-step episode with `n_step = 1` ends with
`V[0] = 3/2, V[1] = 5/2`: with `n = 1` the n-step code bootstraps on
`γ·V[s_t]` (it reads `states[r + n_step - 1]`, the state being updated)
instead of `γ·V[s_{t+1}]` and uses reward `grid[s'] + step_cost` instead
of TD(0)'s constant reward, so the two runs produce different tables. -/
theorem c2_nstep1_differs_from_td0 :
    (td0Loop corridorEnv (1/2) (1/2) (-1) constActs 3 0 (td0Init corridorEnv 0)).done
        = true ∧
      (td0Loop corridorEnv (1/2) (1/2) (-1) constActs 3 0 (td0Init corridorEnv 0)).grid 0
        = 1/2 ∧
      (td0Loop corridorEnv (1/2) (1/2) (-1) constActs 3 0 (td0Init corridorEnv 0)).grid 1
        = 3/2 ∧
      (nstepLoop corridorEnv (1/2) (1/2) (-1) 1 constActs 4 (nstepInit corridorEnv 0)).done
        = true ∧
      (nstepLoop corridorEnv (1/2) (1/2) (-1) 1 constActs 4
          (nstepInit corridorEnv 0)).grid 0 = 3/2 ∧
      (nstepLoop corridorEnv (1/2) (1/2) (-1) 1 constActs 4
          (nstepInit corridorEnv 0)).grid 1 = 5/2 ∧
      ((1:ℚ)/2 ≠ 3/2) := by
  refine ⟨?_, ?_, ?_, ?_, ?_, ?_, by norm_num⟩
  · simp only [td0Loop, td0Body, td0Init, corridorEnv, constActs]
    norm_num [setG]
  · simp only [td0Loop, td0Body, td0Init, corridorEnv, constActs]
    norm_num [setG]
  · simp only [td0Loop, td0Body, td0Init, corridorEnv, constActs]
    norm_num [setG]
  · simp only [nstepLoop, nstepBody, nstepInit, nstep_return, corridorEnv, constActs]
    norm_num [setG, List.range']
  · simp only [nstepLoop, nstepBody, nstepInit, nstep_return, corridorEnv, constActs]
    norm_num [setG, List.range']
  · simp only [nstepLoop, nstepBody, nstepInit, nstep_return, corridorEnv, constActs]
    norm_num [setG, List.range']

/-- C3: at the update of the state visited at time `t = 0` performed at
loop time `t = 1` of an `n_step = 2` episode on the unbounded corridor
(buffers `states = [0, 1]`, `rewards = [3, -1]`, horizon untouched), the
return the code computes is `2 = r₁ + r₂·γ⁻¹ + γ²·V[s₁]` — the discount
exponent `γ^(r-x)` is negative past the first term and the bootstrap reads
`states[r + n_step - 1]`, the state `n−1` steps ahead — while the claimed
return `Σ_k γ^k·r_{t+k+1} + γ²·V[s_{t+2}]` equals `5/2`; accordingly the
loop writes `V[0] = 0 + ½·(2 − 0) = 1` and not `0 + ½·(5/2 − 0) = 5/4`. -/
theorem c3_nstep_return_differs :
    nstep_return (1/2) 2 0 100000 [3, -1] [0, 1] longCorridorEnv.grid 0 = 2 ∧
      spec_nstep_return (1/2) 2 0 100000 (fun x => ([3, -1] : List ℚ).getD x 0)
        (fun i => i) longCorridorEnv.grid = 5/2 ∧
      (nstepLoop longCorridorEnv (1/2) (1/2) (-1) 2 constActs 2
        (nstepInit longCorridorEnv 0)).grid 0 = 1 ∧
      ((2:ℚ) ≠ 5/2) ∧
      ((0:ℚ) + 1/2 * (2 - 0) = 1) ∧
      ((0:ℚ) + 1/2 * (5/2 - 0) = 5/4) ∧
      ((1:ℚ) ≠ 5/4) := by
  refine ⟨?_, ?_, ?_, by norm_num, by norm_num, by norm_num, by norm_num⟩
  · norm_num [nstep_return, longCorridorEnv, List.range']
  · norm_num [spec_nstep_return, longCorridorEnv, List.range']
  · simp only [nstepLoop, nstepBody, nstepInit, nstep_return, longCorridorEnv, constActs]
    norm_num [setG, List.range']

/-- C6 counterexample: `select_action`'s exploitation branch is a
deterministic function of the table (`np.argmax` picks the first
maximising index), so on the tied row `Q 0 = (5, 5)` action `1` maximises
yet is returned for no random draw — here even with `ε = 0` and the random
pick being `1`, the selection is still `0`. -/
theorem c6_first_maximizer_counterexample :
    (1 : ℕ) ∈ twoActionEnv.possible_actions ∧
      tieQ 0 1 = listMaxD (twoActionEnv.possible_actions.map fun x => tieQ 0 x) ∧
      select_action_exploit twoActionEnv tieQ 0 = 0 ∧
      select_action twoActionEnv 0 (1/2) 1 tieQ 0 = 0 ∧
      (0 : ℕ) ≠ 1 := by
  refine ⟨by decide, ?_, ?_, ?_, by decide⟩
  · norm_num [tieQ, twoActionEnv, listMaxD]
  · norm_num [select_action_exploit, argmaxFirst, listMaxD, twoActionEnv, tieQ]
  · norm_num [select_action, select_action_exploit, argmaxFirst, listMaxD,
      twoActionEnv, tieQ]

/-- C6 amended: in `TD.py` the exploitation branch of `select_action`
deterministically returns the action at the FIRST maximising index of the
row (its value attains the row maximum and every earlier entry is strictly
smaller), with no random tie-break; only the bandit module's `Greedy._act`
breaks ties randomly, drawing uniformly from a candidate pool that
contains exactly the arms whose estimate equals the row maximum. -/
theorem c6_tie_breaking [DecidableEq A] [Inhabited A] (env : Env S A)
    (Q : S → A → ℚ) (s : S) (arms : List A) (q : A → ℚ)
    (hA : env.possible_actions ≠ []) :
    select_action_exploit env Q s
        = env.possible_actions.getD
            (argmaxFirst (env.possible_actions.map fun x => Q s x)) default ∧
      Q s (select_action_exploit env Q s)
        = listMaxD (env.possible_actions.map fun x => Q s x) ∧
      (∀ j, j < argmaxFirst (env.possible_actions.map fun x => Q s x) →
        (env.possible_actions.map fun x => Q s x).getD j 0
          < listMaxD (env.possible_actions.map fun x => Q s x)) ∧
      (∀ b, b ∈ greedyCandidates arms q ↔ b ∈ arms ∧ q b = listMaxD (arms.map q)) := by
  have hrow : (env.possible_actions.map fun x => Q s x) ≠ [] :=
    fun hc => hA (List.map_eq_nil_iff.mp hc)
  have hlt : argmaxFirst (env.possible_actions.map fun x => Q s x)
      < env.possible_actions.length := by
    have := argmaxFirst_lt_length _ hrow
    simpa using this
  refine ⟨rfl, ?_, argmaxFirst_first _, ?_⟩
  · rw [select_action_exploit]
    rw [← getD_map (fun x => Q s x) env.possible_actions _ default 0 hlt]
    exact getD_argmaxFirst _ hrow
  · intro b
    simp [greedyCandidates, List.mem_filter]

/-- Witness for C6 amended on the tied two-action instance. -/
theorem c6_tie_breaking_witness :
    twoActionEnv.possible_actions ≠ [] ∧
      tieQ 0 (select_action_exploit twoActionEnv tieQ 0)
        = listMaxD (twoActionEnv.possible_actions.map fun x => tieQ 0 x) :=
  ⟨by decide,
    (c6_tie_breaking twoActionEnv tieQ 0 [0, 1] bMean (by decide)).2.1⟩

/-- C8: the successor-state queries of `td_control`, TD(0) and n-step TD
look up `new_state_given_action`, which the consumed environment contract
provides, but `DoubleQLearning.compute_state_value` and
`TabularDynaQ.compute_state_value` look up `next_state_given_action`,
a name outside the contract: on an environment providing exactly the
contract their first episode step fails with an attribute-lookup fault. -/
theorem c8_successor_method_names :
    tdControlSuccessorMethod ∈ envContractMethods ∧
      td0SuccessorMethod ∈ envContractMethods ∧
      nstepSuccessorMethod ∈ envContractMethods ∧
      doubleQSuccessorMethod ∉ envContractMethods ∧
      dynaQSuccessorMethod ∉ envContractMethods ∧
      doubleQSuccessorMethod ≠ "new_state_given_action" ∧
      dynaQSuccessorMethod ≠ "new_state_given_action" := by
  decide

/-- C9 counterexample: a one-step run whose single chosen action is not
the best arm records an empty performance series, not one entry per step:
the recording happens only under `if action == best`. -/
theorem c9_missing_entries_counterexample :
    bestArm [0, 1] bMean = 0 ∧
      simulateSeries (0 : ℕ) [1] = [] ∧
      (simulateSeries (0 : ℕ) [1]).length ≠ 1 := by
  refine ⟨?_, rfl, by simp [simulateSeries, simulateGo]⟩
  norm_num [bestArm, argmaxFirst, listMaxD, bMean]

/-- C9 amended: the recorded series of `Greedy.simulate` / `UCB.simulate`
holds one entry for each step on which the best arm was chosen (not for
every step), and the entry recorded at step `i` equals the fraction of
best-arm choices among the first `i + 1` steps. -/
theorem c9_series_entries [DecidableEq A] (best : A) (acts : List A) :
    simulateSeries best acts =
      (List.range acts.length).filterMap fun i =>
        if acts.getD i best = best then
          some ((countBest best (acts.take (i + 1)) : ℚ) / ((i : ℚ) + 1))
        else none := by
  rw [simulateSeries, simulateGo_eq]
  apply List.filterMap_congr
  intro i _
  by_cases hi : acts.getD i best = best
  · rw [if_pos hi, if_pos hi]
    norm_num
  · rw [if_neg hi, if_neg hi]

/-- C10: a bandit `_step` leaves the `mean` and `sd` rows of every arm
unchanged, modifies `action_count` and `q_estimation` only at the chosen
arm (incrementing the count by one), and a whole `simulate` run never
touches `mean` or `sd`, so the ground truth judging the best arm is never
corrupted by learning. -/
theorem c10_step_touches_only_chosen_arm [DecidableEq A] (sa : Bool) (step_size : ℚ)
    (t : BanditTable A) (a : A) (r : ℚ) (runs : List (A × ℚ)) :
    (banditStep sa step_size t a r).mean = t.mean ∧
      (banditStep sa step_size t a r).sd = t.sd ∧
      (∀ b, b ≠ a → (banditStep sa step_size t a r).action_count b = t.action_count b ∧
        (banditStep sa step_size t a r).q_estimation b = t.q_estimation b) ∧
      (banditStep sa step_size t a r).action_count a = t.action_count a + 1 ∧
      (simulateTable sa step_size t runs).mean = t.mean ∧
      (simulateTable sa step_size t runs).sd = t.sd := by
  refine ⟨rfl, rfl, ?_, ?_, (simulateTable_mean_sd sa step_size runs t).1,
    (simulateTable_mean_sd sa step_size runs t).2⟩
  · intro b hb
    constructor <;> simp [banditStep, hb]
  · simp [banditStep]

/-- Witness for C10: stepping arm `0` leaves arm `1`'s counter alone. -/
theorem c10_step_touches_only_chosen_arm_witness :
    ((1 : ℕ) ≠ 0) ∧
      (banditStep true 1 freshBandit 0 3).action_count 1 = freshBandit.action_count 1 :=
  ⟨by decide,
    ((c10_step_touches_only_chosen_arm true 1 freshBandit 0 3 []).2.2.1 1 (by decide)).1⟩

end AlgoRL
